import Mathlib

/-!
# Verification of the Game-Translator pipeline (shallow embedding)

This file embeds the pure algorithmic core of the Game-Translator repository
(`src/ocr.rs`, `src/translate.rs`, `src/capture.rs`, `src/overlay.rs`,
`src/main.rs`) into Lean and proves or refutes the frozen specification
claims about it.

Modelling conventions:
* Rust `i32` coordinates are modelled as `Int` (no arithmetic here comes
  near 2^31, so wrap-around is irrelevant for every statement below).
* The single floating-point expression that any claim depends on,
  `(prev_height as f32 * 0.8) as i32` in `ocr.rs`, is modelled as
  `Int.tdiv (4 * h) 5`: Rust's `as i32` cast truncates toward zero, and for
  every |h| below ~10^5 the `f32` product `h * 0.8f32` lies strictly
  between the neighbouring integers of the exact value `4h/5` unless `4h/5`
  is itself an integer, so the truncations coincide.  Likewise
  `font_size.max(8.0) as u32` in `overlay.rs` is modelled over `ℚ` with an
  explicit floor.
* External OS / network effects (Windows OCR language enumeration, D2D
  resource creation, the HTTP translation backends) are passed in as
  explicit function parameters so the control flow of the repository code
  around them is what is being verified.
* Rust strings are modelled as Lean `String` (a list of characters); the
  character-level helpers below mirror `str::trim`, `str::find`,
  `str::lines` and `usize::from_str` on the ASCII inputs the claims use.
-/

namespace GameTranslator

/-! ## Character-level string helpers (mirroring the Rust `str` methods used) -/

/-- ASCII whitespace test, matching `char::is_whitespace` on ASCII input. -/
def isWs (c : Char) : Bool :=
  c = ' ' || c = '\t' || c = '\n' || c = '\r'

/-- `str::trim`: drop whitespace from both ends (char-level model). -/
def trimChars (cs : List Char) : List Char :=
  ((cs.dropWhile isWs).reverse.dropWhile isWs).reverse

/-- `str::trim` lifted to `String`. -/
def rstrTrim (s : String) : String :=
  String.mk (trimChars s.data)

/-- `s.trim().is_empty()`: the string is empty or all whitespace. -/
def isBlank (s : String) : Bool :=
  (trimChars s.data).isEmpty

/-! ## `ocr.rs`: raw OCR lines and paragraph grouping -/

/-- `RawLine` from `src/ocr.rs`. -/
structure RawLine where
  text : String
  x : Int
  y : Int
  width : Int
  height : Int
  deriving DecidableEq

/-- `TextRegion` from `src/ocr.rs`. -/
structure TextRegion where
  text : String
  x : Int
  y : Int
  width : Int
  height : Int
  deriving DecidableEq

/-- The merge threshold `(prev_height as f32 * 0.8) as i32` from
`OCREngine::group_into_paragraphs` (truncated toward zero, see header). -/
def mergeThreshold (prevHeight : Int) : Int :=
  Int.tdiv (4 * prevHeight) 5

/-- The merge condition of `OCREngine::group_into_paragraphs`:
`gap >= 0 && gap < threshold && x_diff < prev_height * 2`, where
`gap = line.y - (prev_y + prev_height)` and `x_diff = (line.x - prev_x).abs()`
and `prev` is the immediately preceding raw line. -/
def mergeCond (prev line : RawLine) : Bool :=
  let gap := line.y - (prev.y + prev.height)
  let xDiff := ((line.x - prev.x).natAbs : Int)
  decide (0 ≤ gap) && decide (gap < mergeThreshold prev.height) &&
    decide (xDiff < prev.height * 2)

/-- The mutable state of the loop in `OCREngine::group_into_paragraphs`:
accumulated paragraphs, the current paragraph's fields, and the previous
line's `y`/`height`/`x`. -/
structure GroupSt where
  paragraphs : List TextRegion
  currentText : String
  currentX : Int
  currentY : Int
  currentMaxWidth : Int
  currentMaxHeight : Int
  prevY : Int
  prevHeight : Int
  prevX : Int
  deriving DecidableEq

/-- One iteration of the `for line in &lines[1..]` loop body of
`OCREngine::group_into_paragraphs`. -/
def groupStep (st : GroupSt) (line : RawLine) : GroupSt :=
  let prev : RawLine :=
    { text := "", x := st.prevX, y := st.prevY, width := 0, height := st.prevHeight }
  if mergeCond prev line then
    { st with
      currentText := st.currentText ++ " " ++ line.text
      currentMaxWidth := max st.currentMaxWidth line.width
      currentMaxHeight := max st.currentMaxHeight line.height
      prevY := line.y, prevHeight := line.height, prevX := line.x }
  else
    { paragraphs := st.paragraphs ++
        [⟨st.currentText, st.currentX, st.currentY, st.currentMaxWidth, st.currentMaxHeight⟩]
      currentText := line.text
      currentX := line.x
      currentY := line.y
      currentMaxWidth := line.width
      currentMaxHeight := line.height
      prevY := line.y, prevHeight := line.height, prevX := line.x }

/-- The state the Rust function initializes from `lines[0]`. -/
def groupInit (l0 : RawLine) : GroupSt :=
  ⟨[], l0.text, l0.x, l0.y, l0.width, l0.height, l0.y, l0.height, l0.x⟩

/-- The trailing `paragraphs.push(...)` of `group_into_paragraphs`: the
accumulated paragraphs followed by the still-open current paragraph. -/
def groupFinal (st : GroupSt) : List TextRegion :=
  st.paragraphs ++
    [⟨st.currentText, st.currentX, st.currentY, st.currentMaxWidth, st.currentMaxHeight⟩]

/-- `OCREngine::group_into_paragraphs` from `src/ocr.rs`. -/
def group_into_paragraphs (lines : List RawLine) : List TextRegion :=
  match lines with
  | [] => []
  | l0 :: rest => groupFinal (rest.foldl groupStep (groupInit l0))

/-! Specification-side paragraph grouping, written from the words of the
spec ("a line is appended to the current paragraph if ...; otherwise the
paragraph closes and a new one starts; merged paragraph box = origin of
first line, width = max width of merged lines, height = max height of
merged lines; text = lines joined with single spaces"), with the merge
condition as a parameter so both the spec's real-valued threshold and the
code's truncated threshold can be plugged in. -/

/-- Close-out region of a paragraph described by its accumulated fields. -/
def specRegion (text : String) (x y w h : Int) : TextRegion :=
  ⟨text, x, y, w, h⟩

/-- Spec-side grouping: `prev` is the last line seen, the other arguments
accumulate the open paragraph (origin, running maxima, joined text). -/
def specGroupAux (cond : RawLine → RawLine → Bool) (prev : RawLine)
    (text : String) (x y w h : Int) : List RawLine → List TextRegion
  | [] => [specRegion text x y w h]
  | l :: ls =>
    if cond prev l then
      specGroupAux cond l (text ++ " " ++ l.text) x y (max w l.width) (max h l.height) ls
    else
      specRegion text x y w h ::
        specGroupAux cond l l.text l.x l.y l.width l.height ls

/-- Spec-side grouping of a whole list of raw lines. -/
def specGroup (cond : RawLine → RawLine → Bool) : List RawLine → List TextRegion
  | [] => []
  | l :: ls => specGroupAux cond l l.text l.x l.y l.width l.height ls

/-- The merge condition as literally claimed by the spec: vertical gap in
the real interval `[0, 0.8 * previous_line_height)` and horizontal offset
less than `2 * previous_line_height`. -/
def claimMergeCond (prev line : RawLine) : Prop :=
  let gap := line.y - (prev.y + prev.height)
  0 ≤ gap ∧ (gap : ℚ) < (4 / 5 : ℚ) * (prev.height : ℚ) ∧
    ((line.x - prev.x).natAbs : Int) < 2 * prev.height

/-- The three raw lines of claim C1: equal `x`, heights 20, `y` values
0, 18, 80, with non-empty texts. -/
def c1lines : List RawLine :=
  [⟨"a", 5, 0, 30, 20⟩, ⟨"b", 5, 18, 30, 20⟩, ⟨"c", 5, 80, 30, 20⟩]

/-- First line of the C2 counterexample: height 21. -/
def c2prev : RawLine := ⟨"a", 0, 0, 10, 21⟩

/-- Second line of the C2 counterexample: vertical gap 16 to `c2prev`,
inside the real interval `[0, 0.8 * 21) = [0, 16.8)` but not below the
code's truncated threshold `(21 as f32 * 0.8) as i32 = 16`. -/
def c2line : RawLine := ⟨"b", 0, 37, 10, 21⟩

/-! ## `translate.rs`: numbered-response parsing and batch translation -/

/-- `str::lines` modelled as splitting on `'\n'` (the final empty segment
Rust drops, and the `'\r'` Rust strips, are both neutralized by the
`trim`-then-skip-empty treatment every line immediately receives in
`parse_numbered_response`). -/
def splitOnNl : List Char → List (List Char)
  | [] => [[]]
  | c :: rest =>
    let r := splitOnNl rest
    if c = '\n' then [] :: r
    else
      match r with
      | [] => [[c]]
      | h :: t => (c :: h) :: t

/-- `str::find(pat)`: index of the first occurrence of `pat` as a
contiguous substring. -/
def findSubstrIdx (pat : List Char) : List Char → Option Nat
  | [] => if pat.isEmpty then some 0 else none
  | c :: cs =>
    if pat.isPrefixOf (c :: cs) then some 0
    else (findSubstrIdx pat cs).map (fun i => i + 1)

/-- The digits part of `usize::from_str`: one or more ASCII digits. -/
def parseDigits (cs : List Char) : Option Nat :=
  if cs.isEmpty then none
  else if cs.all Char.isDigit then
    some (cs.foldl (fun a c => a * 10 + (c.toNat - 48)) 0)
  else none

/-- `str::parse::<usize>()`: optional leading `'+'`, then digits.  (Rust
additionally fails on overflow past `usize::MAX`; such a huge number also
fails the `num <= count` range check below, so the observable behaviour
of `parse_numbered_response` is unchanged.) -/
def parseUsize (cs : List Char) : Option Nat :=
  match cs with
  | '+' :: rest => parseDigits rest
  | _ => parseDigits cs

/-- The `"N. text"` pattern check of `parse_numbered_response`: find
`". "`, parse the trimmed prefix as a number, and accept it only when
`1 <= num && num <= count`. -/
def matchNumbered (trimmed : List Char) (count : Nat) : Option (Nat × List Char) :=
  match findSubstrIdx ['.', ' '] trimmed with
  | none => none
  | some dotPos =>
    match parseUsize (trimChars (trimmed.take dotPos)) with
    | none => none
    | some num =>
      if 1 ≤ num ∧ num ≤ count then some (num, trimmed.drop (dotPos + 2))
      else none

/-- The mutable state of the line loop in `parse_numbered_response`. -/
structure PState where
  results : List (Option (List Char))
  currentNum : Option Nat
  currentText : List Char
  deriving DecidableEq

/-- Committing the currently open numbered item (`results[prev - 1] =
Some(current_text.trim())`), shared by the loop body and the epilogue. -/
def prCommit (count : Nat) (st : PState) : List (Option (List Char)) :=
  match st.currentNum with
  | some prev =>
    if 1 ≤ prev ∧ prev ≤ count then
      st.results.set (prev - 1) (some (trimChars st.currentText))
    else st.results
  | none => st.results

/-- One iteration of the `for line in raw.lines()` loop of
`parse_numbered_response`. -/
def prStep (count : Nat) (st : PState) (line : List Char) : PState :=
  let trimmed := trimChars line
  if trimmed.isEmpty then st
  else
    match matchNumbered trimmed count with
    | some (num, text) =>
      { results := prCommit count st, currentNum := some num, currentText := text }
    | none =>
      match st.currentNum with
      | some _ => { st with currentText := st.currentText ++ ' ' :: trimmed }
      | none => st

/-- `parse_numbered_response` from `src/translate.rs`. -/
def parse_numbered_response (raw : String) (count : Nat) : List (Option String) :=
  let st := (splitOnNl raw.data).foldl (prStep count) ⟨List.replicate count none, none, []⟩
  let results := prCommit count st
  let results :=
    if count = 1 ∧ results[0]? = some none ∧ trimChars raw.data ≠ [] then
      results.set 0 (some (trimChars raw.data))
    else results
  results.map (Option.map String.mk)

/-- The enumerate-filter-map computing `non_empty_indices` in
`Translator::translate_batch` (`i` is the running enumeration index). -/
def nonEmptyIndicesFrom (i : Nat) : List String → List Nat
  | [] => []
  | t :: ts =>
    if isBlank t then nonEmptyIndicesFrom (i + 1) ts
    else i :: nonEmptyIndicesFrom (i + 1) ts

/-- `non_empty_texts`: the strings the backend request is built from. -/
def batchPayload (texts : List String) : List String :=
  (nonEmptyIndicesFrom 0 texts).filterMap (fun i => texts[i]?)

/-- The write-back loop of `translate_batch` (`results[original_idx] =
translated[translated_idx]` guarded by `translated_idx < translated.len()`);
`ti` is the running `translated_idx`. -/
def mapBack (translated : List (Option String)) :
    List Nat → Nat → List (Option String) → List (Option String)
  | [], _, res => res
  | oi :: rest, ti, res =>
    let res' :=
      match translated[ti]? with
      | some v => res.set oi v
      | none => res
    mapBack translated rest (ti + 1) res'

/-- `Translator::translate_batch` from `src/translate.rs`, with the
HTTP backend call abstracted as `backend` (`none` models a transport or
envelope failure, which the Rust code propagates as `Err`). -/
def translate_batch (backend : List String → Option (List (Option String)))
    (texts : List String) : Option (List (Option String)) :=
  if texts.isEmpty then some []
  else if (nonEmptyIndicesFrom 0 texts).isEmpty then
    some (List.replicate texts.length none)
  else
    match backend (batchPayload texts) with
    | none => none
    | some translated =>
      some (mapBack translated (nonEmptyIndicesFrom 0 texts) 0
        (List.replicate texts.length none))

/-! ## `ocr.rs`: OCR engine selection (`OCREngine::new`) -/

/-- `str::to_lowercase` on ASCII language tags. -/
def lowerStr (s : String) : String := String.mk (s.data.map Char.toLower)

/-- `str::starts_with`. -/
def startsWithStr (pre s : String) : Bool := pre.data.isPrefixOf s.data

/-- `OCREngine::new` from `src/ocr.rs`: the host's available recognizer
languages and the success of `OcrEngine::TryCreateFromLanguage` are passed
in; the result is the language tag the engine was created from.  The code
prefers the first language whose lowercased tag starts with the literal
`"en"` and for which creation succeeds (breaking out of the loop), then
falls back to the language at index 0, and errors if that also fails or if
no languages exist. -/
def ocrEngineNew (available : List String) (tryCreate : String → Bool) :
    Except String String :=
  match available with
  | [] => .error "No OCR languages available."
  | l0 :: _ =>
    match (available.filter (fun t => startsWithStr "en" (lowerStr t))).find? tryCreate with
    | some l => .ok l
    | none =>
      if tryCreate l0 then .ok l0
      else .error "Failed to create OCR engine from any available language"

/-- Engine selection as claim C4 states it (spec-side definition for the
refinement comparison): prefer an installed recognizer language matching
the configured source language family, fall back to the first available
language, and fail only when zero recognizer languages exist. -/
def claimEngineSelect (sourceLang : String) (available : List String) :
    Except String String :=
  match available with
  | [] => .error "No OCR languages available."
  | l0 :: _ =>
    match available.find? (fun t => startsWithStr (lowerStr sourceLang) (lowerStr t)) with
    | some l => .ok l
    | none => .ok l0

/-! ## `capture.rs`: `WindowCapture` -/

/-- The DIB-backed state of `WindowCapture`: current dimensions, whether a
memory DC / DIB section currently exists (`!memory_dc.is_invalid()`), and
a counter of DIB (re)allocations — the observable the spec's testable
property names. -/
structure CaptureSt where
  width : Nat
  height : Nat
  allocated : Bool
  allocCount : Nat
  deriving DecidableEq

/-- `WindowCapture::new`: zero size, no DC. -/
def captureNew : CaptureSt := ⟨0, 0, false, 0⟩

/-- `WindowCapture::ensure_dib`: reuse the surface when the size matches
and a DC exists, otherwise free it and allocate a new one (exactly one
allocation). -/
def ensure_dib (st : CaptureSt) (w h : Nat) : CaptureSt :=
  if st.width = w ∧ st.height = h ∧ st.allocated then st
  else ⟨w, h, true, st.allocCount + 1⟩

/-- `WindowCapture::capture_frame`, with the client-area size reported by
`GetClientRect` passed in.  The pixel contents are external, so the
returned frame is represented by its dimensions. -/
def capture_frame (st : CaptureSt) (w h : Nat) : CaptureSt × Option (Nat × Nat) :=
  if w = 0 ∨ h = 0 then (st, none)
  else (ensure_dib st w h, some (w, h))

/-! ## `overlay.rs`: text-format cache, layout, and device-loss recovery -/

/-- Floor of a rational (the `as u32` cast of the non-negative `f32`
values below truncates, which for them is the floor). -/
def ratFloor (q : ℚ) : Int := Int.fdiv q.num q.den

/-- `f32::round` (half away from zero) on exact rationals, for the
claim-side key: `sign(q) * floor(|q| + 1/2)`, written over numerator and
denominator so it evaluates by kernel reduction. -/
def ratRound (q : ℚ) : Int :=
  if 0 ≤ q.num then Int.fdiv (2 * q.num + q.den) (2 * q.den)
  else -(Int.fdiv (-(2 * q.num) + q.den) (2 * q.den))

/-- The cache key of `Overlay::get_or_create_text_format`:
`font_size.max(8.0) as u32`. -/
def quantizeKey (fontSize : ℚ) : Nat := (ratFloor (max fontSize 8)).toNat

/-- The key as claim C5 states it: `max(8, round(font_size))`. -/
def claimQuantizeKey (fontSize : ℚ) : Int := max 8 (ratRound fontSize)

/-- The `text_format_cache` of `Overlay`, with each created
`IDWriteTextFormat` represented by a unique creation id: `entries` maps
quantized key to format id, `nextId` counts format creations. -/
structure FormatCache where
  entries : List (Nat × Nat)
  nextId : Nat
  deriving DecidableEq

/-- `Overlay::get_or_create_text_format`: return the cached format for the
quantized key, or create (a fresh id), cache and return it. -/
def get_or_create_text_format (c : FormatCache) (fontSize : ℚ) :
    Nat × FormatCache :=
  let key := quantizeKey fontSize
  match List.lookup key c.entries with
  | some f => (f, c)
  | none => (c.nextId, ⟨(key, c.nextId) :: c.entries, c.nextId + 1⟩)

/-- `TranslatedText` from `src/overlay.rs` (geometry over `ℚ`). -/
structure TranslatedText where
  translated_text : String
  x : ℚ
  y : ℚ
  max_width : ℚ
  font_size : ℚ

/-- The format-resolution loop at the top of `Overlay::render_inner`: one
format per text item, in order, threading the cache. -/
def resolveFormats (c : FormatCache) : List TranslatedText → List Nat × FormatCache
  | [] => ([], c)
  | t :: ts =>
    let r := get_or_create_text_format c t.font_size
    let rest := resolveFormats r.2 ts
    (r.1 :: rest.1, rest.2)

/-- One `CreateTextLayout` call of `render_inner`: the resolved format and
the wrapping width `max_width.max(150.0)`. -/
structure LayoutOp where
  format : Nat
  wrap : ℚ

/-- The per-item layout calls of `Overlay::render_inner`. -/
def renderLayouts (c : FormatCache) (texts : List TranslatedText) :
    List LayoutOp × FormatCache :=
  let r := resolveFormats c texts
  ((texts.zip r.1).map (fun p => ⟨p.2, max p.1.max_width 150⟩), r.2)

/-- `D2DERR_RECREATE_TARGET`, the one HRESULT `render`/`clear` catch. -/
def D2DERR_RECREATE_TARGET : Nat := 0x8899000C

/-- The device-bound resources of `Overlay` (each live resource carries
the generation it was created in, so rebuilt resources are distinguishable
from the originals) together with the GDI `memory_dc` the render target is
bound to. -/
structure OverlayRes where
  bgBrush : Option Nat
  textBrush : Option Nat
  formatCache : List (Nat × Nat)
  renderTarget : Option Nat
  memoryDc : Nat
  gen : Nat
  deriving DecidableEq

/-- The discarding prologue of `Overlay::recreate_render_resources`:
brushes, cached text formats and render target are dropped. -/
def discardDeviceResources (st : OverlayRes) : OverlayRes :=
  { st with
    bgBrush := none
    textBrush := none
    formatCache := []
    renderTarget := none }

/-- `Overlay::recreate_render_resources`: discard, then recreate a render
target bound to the same `memory_dc` and fresh brushes; `createRes` is the
outcome of the external D2D creation/bind calls (an error propagates with
the resources left discarded, as in the Rust `?` operator). -/
def recreate_render_resources (createRes : Except Nat Unit) (st : OverlayRes) :
    Except Nat Unit × OverlayRes :=
  let d := discardDeviceResources st
  match createRes with
  | .error e => (.error e, d)
  | .ok _ =>
    (.ok (), { d with
      renderTarget := some (st.gen + 1)
      bgBrush := some (st.gen + 1)
      textBrush := some (st.gen + 1)
      gen := st.gen + 1 })

/-- `Overlay::render`: run `render_inner` (outcome `inner st`, a function
of the current resources); on exactly `D2DERR_RECREATE_TARGET`, recreate
the resources and retry once, the retry's outcome propagating as is; any
other error propagates untouched.  The trailing `Nat` counts
`render_inner` attempts. -/
def overlayRender (inner : OverlayRes → Except Nat Unit)
    (createRes : Except Nat Unit) (st : OverlayRes) :
    Except Nat Unit × OverlayRes × Nat :=
  match inner st with
  | .ok _ => (.ok (), st, 1)
  | .error e =>
    if e = D2DERR_RECREATE_TARGET then
      match recreate_render_resources createRes st with
      | (.error re, st') => (.error re, st', 1)
      | (.ok _, st') => (inner st', st', 2)
    else (.error e, st, 1)

/-- `Overlay::clear`: the identical catch-one-code, rebuild, retry-once
structure around `clear_inner`. -/
def overlayClear (inner : OverlayRes → Except Nat Unit)
    (createRes : Except Nat Unit) (st : OverlayRes) :
    Except Nat Unit × OverlayRes × Nat :=
  match inner st with
  | .ok _ => (.ok (), st, 1)
  | .error e =>
    if e = D2DERR_RECREATE_TARGET then
      match recreate_render_resources createRes st with
      | (.error re, st') => (.error re, st', 1)
      | (.ok _, st') => (inner st', st', 2)
    else (.error e, st, 1)

/-! ## `main.rs`: change detection, cache and the polling tick -/

/-- `texts_changed` from `src/main.rs`. -/
def texts_changed (current previous : List String) : Bool :=
  current.length != previous.length ||
    (current.zip previous).any (fun p => p.1 != p.2)

/-- `HashMap::insert` observed through `get`/`contains_key`: the new
binding replaces any previous binding of the key. -/
def cacheInsert (cache : List (String × String)) (k v : String) :
    List (String × String) :=
  (k, v) :: cache.filter (fun p => p.1 != k)

/-- The `for (orig, trans) in uncached.iter().zip(translations.iter())`
insertion loop of the pipeline tick: each `Some` translation is inserted,
each `None` is skipped. -/
def insertBatch (cache : List (String × String)) :
    List String → List (Option String) → List (String × String)
  | [], _ => cache
  | _ :: _, [] => cache
  | orig :: os, tr :: ts =>
    match tr with
    | some t => insertBatch (cacheInsert cache orig t) os ts
    | none => insertBatch cache os ts

/-- The adaptive-interval computation at the top of each tick of
`capture_and_translate_loop`. -/
def tickInterval (noChangeCount : Nat) : Nat :=
  if noChangeCount > 10 then 2000
  else if noChangeCount > 5 then 1000
  else 200

/-- The per-tick mutable state of `capture_and_translate_loop` the claims
concern: previous tick's recognized texts, the no-change counter, and the
translation cache. -/
structure LoopSt where
  prevTexts : List String
  noChangeCount : Nat
  cache : List (String × String)
  deriving DecidableEq

/-- What one tick reports: total milliseconds slept in this iteration and
whether `Translator::translate_batch` was invoked. -/
structure TickOut where
  slept : Nat
  translatorCalled : Bool
  deriving DecidableEq

/-- One iteration of the polling loop of `capture_and_translate_loop`
(the stop-signal and window-closed exits aside): `fg` says whether the
target window is the foreground window, `frame` is `None` when
`capture_frame` produced no frame (degenerate client size) and otherwise
carries the texts of the recognized regions, and `translate` is the
batch-translation call (`none` = `Err`).  Mirrors the code: the interval
is computed from the no-change counter at the top of the tick; a
not-foreground tick clears and sleeps a fixed 500 ms without touching the
counter; a failed translation sleeps an extra 2000 ms before the interval
sleep; cache insertion and `prev_texts` update happen as in the source. -/
def loopTick (translate : List String → Option (List (Option String)))
    (fg : Bool) (frame : Option (List String)) (st : LoopSt) :
    LoopSt × TickOut :=
  let interval := tickInterval st.noChangeCount
  if !fg then
    ({ st with prevTexts := [] }, ⟨500, false⟩)
  else
    match frame with
    | none => (st, ⟨interval, false⟩)
    | some texts =>
      if texts.isEmpty then
        ({ st with prevTexts := [], noChangeCount := st.noChangeCount + 1 },
          ⟨interval, false⟩)
      else if texts_changed texts st.prevTexts then
        let uncached := texts.filter (fun t => (List.lookup t st.cache).isNone)
        if uncached.isEmpty then
          ({ prevTexts := texts, noChangeCount := 0, cache := st.cache },
            ⟨interval, false⟩)
        else
          match translate uncached with
          | some translations =>
            ({ prevTexts := texts, noChangeCount := 0,
               cache := insertBatch st.cache uncached translations },
              ⟨interval, true⟩)
          | none =>
            ({ prevTexts := texts, noChangeCount := 0, cache := st.cache },
              ⟨2000 + interval, true⟩)
      else
        ({ st with noChangeCount := st.noChangeCount + 1 }, ⟨interval, false⟩)

/-- Run `n` consecutive foreground ticks over the same recognized texts,
collecting each tick's sleep and translator flag. -/
def runTicks (translate : List String → Option (List (Option String)))
    (texts : List String) : Nat → LoopSt → LoopSt × List TickOut
  | 0, st => (st, [])
  | n + 1, st =>
    let r := loopTick translate true (some texts) st
    let rest := runTicks translate texts n r.1
    (rest.1, r.2 :: rest.2)

/-- A translator that translates every item (for the concrete runs). -/
def demoTranslator : List String → Option (List (Option String)) :=
  fun ts => some (ts.map (fun _ => some "X"))

/-! ## Theorems -/

/-- The merge condition of the code only consults the previous line's
`y`, `height` and `x`, which is what `groupStep` keeps in its state. -/
theorem mergeCond_eq_of_fields (p q line : RawLine)
    (hy : p.y = q.y) (hh : p.height = q.height) (hx : p.x = q.x) :
    mergeCond p line = mergeCond q line := by
  simp [mergeCond, mergeThreshold, hy, hh, hx]

/-- The fold of `groupStep` computes exactly the spec-side grouping with
the code's merge condition, for any intermediate state whose `prev` fields
come from a line `p`. -/
theorem groupFold_eq_specAux (ls : List RawLine) (P : List TextRegion)
    (t : String) (x y w h : Int) (p : RawLine) :
    groupFinal (ls.foldl groupStep ⟨P, t, x, y, w, h, p.y, p.height, p.x⟩) =
      P ++ specGroupAux mergeCond p t x y w h ls := by
  induction ls generalizing P t x y w h p with
  | nil => simp [groupFinal, specGroupAux, specRegion]
  | cons l ls ih =>
    have hcond :
        mergeCond { text := "", x := p.x, y := p.y, width := 0, height := p.height } l =
          mergeCond p l :=
      mergeCond_eq_of_fields _ _ _ rfl rfl rfl
    by_cases hm : mergeCond p l = true
    · simp only [List.foldl_cons, groupStep, hcond, hm, if_pos, specGroupAux]
      exact ih P (t ++ " " ++ l.text) x y (max w l.width) (max h l.height) l
    · have hm' : mergeCond p l = false := by
        cases hb : mergeCond p l with
        | false => rfl
        | true => exact absurd hb hm
      simp only [List.foldl_cons, groupStep, hcond, hm', Bool.false_eq_true, if_false,
        specGroupAux, specRegion]
      rw [ih (P ++ [(⟨t, x, y, w, h⟩ : TextRegion)]) l.text l.x l.y l.width l.height l]
      simp

/-- Claim C2 (amended): for every list of raw lines, paragraph grouping is
exactly the spec-side grouping in which a line is appended to the current
paragraph when the vertical gap to the previous line lies in
`[0, trunc(0.8 * previous_line_height))` (integer truncation of the `f32`
product, not the real interval) and the absolute horizontal offset of the
line starts is below `2 * previous_line_height`; otherwise the paragraph
closes and a new one starts; each output paragraph carries the origin of
its first line, the maximum width and height of its merged lines, and
their texts joined with single spaces. -/
theorem group_into_paragraphs_eq_specGroup (lines : List RawLine) :
    group_into_paragraphs lines = specGroup mergeCond lines := by
  cases lines with
  | nil => rfl
  | cons l rest =>
    have := groupFold_eq_specAux rest [] l.text l.x l.y l.width l.height l
    simpa [group_into_paragraphs, groupInit, specGroup] using this

/-- Claim C2 counterexample: two raw lines of height 21 at vertical gap 16
and equal `x` satisfy the claimed merge condition (`16 ∈ [0, 0.8·21) =
[0, 16.8)` and `0 < 42`), yet `group_into_paragraphs` does not append the
second line to the first paragraph: it produces 2 regions instead of 1.
The code compares the gap against `(21 as f32 * 0.8) as i32 = 16`. -/
theorem c2_realThreshold_counterexample :
    claimMergeCond c2prev c2line ∧
      (group_into_paragraphs [c2prev, c2line]).length = 2 := by
  constructor
  · refine ⟨by norm_num [c2prev, c2line], ?_, by norm_num [c2prev, c2line]⟩
    norm_num [c2prev, c2line]
  · decide

/-- Claim C1 counterexample: on the raw lines `[{y:0,h:20},{y:18,h:20},
{y:80,h:20}]` with equal `x` and non-empty texts, `group_into_paragraphs`
does not output 2 regions: the gap between lines 1 and 2 is `-2`, which
fails the code's `gap >= 0` test, so lines 1 and 2 are not merged. -/
theorem c1_two_regions_counterexample :
    (group_into_paragraphs c1lines).length ≠ 2 := by decide

/-- Claim C1 (amended): on the raw lines `[{y:0,h:20},{y:18,h:20},
{y:80,h:20}]` with equal `x`, paragraph grouping merges nothing (the gap
`-2` between lines 1 and 2 is negative and the gap `42` between lines 2
and 3 is at least the threshold 16), so the output has exactly 3 regions,
one per input line. -/
theorem c1_three_regions :
    group_into_paragraphs c1lines =
      [⟨"a", 5, 0, 30, 20⟩, ⟨"b", 5, 18, 30, 20⟩, ⟨"c", 5, 80, 30, 20⟩] := by
  decide

/-! ### Helper lemmas for `parse_numbered_response` (C10) -/

/-- `prCommit` never changes the number of result slots. -/
theorem prCommit_length (count : Nat) (st : PState) :
    (prCommit count st).length = st.results.length := by
  unfold prCommit
  cases st.currentNum with
  | none => rfl
  | some prev =>
    by_cases h : 1 ≤ prev ∧ prev ≤ count
    · simp [h]
    · simp [h]

/-- `prStep` never changes the number of result slots. -/
theorem prStep_results_length (count : Nat) (st : PState) (line : List Char) :
    ((prStep count st line).results).length = st.results.length := by
  unfold prStep
  by_cases h1 : (trimChars line).isEmpty
  · simp [h1]
  · simp only [h1, Bool.false_eq_true, if_false]
    rcases hm : matchNumbered (trimChars line) count with _ | ⟨num, text⟩
    · cases hc : st.currentNum <;> simp [hm, hc]
    · simp [hm, prCommit_length]

/-- Folding `prStep` over any list of lines preserves the slot count. -/
theorem foldl_prStep_length (count : Nat) (lines : List (List Char)) (st : PState) :
    ((lines.foldl (prStep count) st).results).length = st.results.length := by
  induction lines generalizing st with
  | nil => rfl
  | cons l ls ih => rw [List.foldl_cons, ih, prStep_results_length]

/-- A successful `matchNumbered` always carries an in-range number. -/
theorem matchNumbered_range {trimmed : List Char} {count n : Nat} {text : List Char}
    (h : matchNumbered trimmed count = some (n, text)) : 1 ≤ n ∧ n ≤ count := by
  unfold matchNumbered at h
  split at h
  · cases h
  · split at h
    · cases h
    · split at h
      · cases h
        assumption
      · cases h

/-- A line that matches no numbered pattern leaves the state unchanged
when no numbered item is open. -/
theorem prStep_ignored (count : Nat) (st : PState) (line : List Char)
    (hm : matchNumbered (trimChars line) count = none)
    (hc : st.currentNum = none) : prStep count st line = st := by
  unfold prStep
  by_cases h1 : (trimChars line).isEmpty
  · simp [h1]
  · simp [h1, hm, hc]

/-- A non-empty line that matches no numbered pattern, while a numbered
item is open, is joined to that item's text with a single space. -/
theorem prStep_joined (count : Nat) (st : PState) (n : Nat) (line : List Char)
    (hc : st.currentNum = some n) (hne : ¬ (trimChars line).isEmpty)
    (hm : matchNumbered (trimChars line) count = none) :
    prStep count st line =
      { st with currentText := st.currentText ++ ' ' :: trimChars line } := by
  unfold prStep
  simp [hne, hm, hc]

/-- If no line of the input matches a numbered pattern, the whole fold
leaves the initial state unchanged. -/
theorem foldl_prStep_no_match (count : Nat) (lines : List (List Char)) (st : PState)
    (hc : st.currentNum = none)
    (hall : ∀ l ∈ lines, matchNumbered (trimChars l) count = none) :
    lines.foldl (prStep count) st = st := by
  induction lines with
  | nil => rfl
  | cons l ls ih =>
    rw [List.foldl_cons, prStep_ignored count st l (hall l (by simp)) hc]
    exact ih fun l hl => hall l (by simp [hl])

/-! ### Claim C10 -/

/-- Claim C10 counterexample: for `raw = "1. hello\n7. world"` and
`count = 1`, the line `7. world` has a leading number outside `1..=count`;
the claim says it is ignored, which would yield `[Some "hello"]`, but the
code joins it to the open item like any continuation line, yielding
`[Some "hello 7. world"]`. -/
theorem c10_out_of_range_joined_counterexample :
    parse_numbered_response "1. hello\n7. world" 1 ≠ [some "hello"] ∧
      parse_numbered_response "1. hello\n7. world" 1 = [some "hello 7. world"] := by
  exact ⟨by decide, by decide⟩

/-- Claim C10 (amended): for every raw string and count,
`parse_numbered_response` returns exactly `count` elements; a line whose
leading number is outside `1..=count` never matches as a numbered item
(so, rather than being ignored outright, it is treated like any
non-numbered line: joined to the currently open item when one exists, and
ignored otherwise); a non-numbered line following a matched numbered line
is joined to that item's text with a single space; and when `count == 1`,
no line matches a numbered pattern, and the raw text is not
whitespace-only, the single element is `Some` of the trimmed raw text. -/
theorem c10_parse_numbered_response_amended :
    (∀ raw count, (parse_numbered_response raw count).length = count) ∧
    (∀ (trimmed : List Char) (count n : Nat) (text : List Char),
        matchNumbered trimmed count = some (n, text) → 1 ≤ n ∧ n ≤ count) ∧
    (∀ (count : Nat) (st : PState) (line : List Char),
        matchNumbered (trimChars line) count = none → st.currentNum = none →
        prStep count st line = st) ∧
    (∀ (count : Nat) (st : PState) (n : Nat) (line : List Char),
        st.currentNum = some n → ¬ (trimChars line).isEmpty →
        matchNumbered (trimChars line) count = none →
        prStep count st line =
          { st with currentText := st.currentText ++ ' ' :: trimChars line }) ∧
    (∀ raw : String,
        (∀ l ∈ splitOnNl raw.data, matchNumbered (trimChars l) 1 = none) →
        trimChars raw.data ≠ [] →
        parse_numbered_response raw 1 = [some (String.mk (trimChars raw.data))]) := by
  refine ⟨?_, fun _ _ _ _ h => matchNumbered_range h, prStep_ignored, prStep_joined, ?_⟩
  · intro raw count
    simp only [parse_numbered_response]
    split <;> simp [prCommit_length, foldl_prStep_length]
  · intro raw hall hne
    unfold parse_numbered_response
    rw [foldl_prStep_no_match 1 (splitOnNl raw.data) ⟨List.replicate 1 none, none, []⟩ rfl hall]
    simp [prCommit, hne, List.set]

/-- Witness for C10: the amended theorem applied at concrete inputs. -/
theorem c10_parse_numbered_response_amended_witness :
    (parse_numbered_response "hello there" 1 = [some "hello there"]) ∧
    ((parse_numbered_response "1. hello\n7. world" 1).length = 1) ∧
    (prStep 1 ⟨[none], some 1, "hello".data⟩ "7. world".data =
      ⟨[none], some 1, "hello 7. world".data⟩) := by
  refine ⟨?_, c10_parse_numbered_response_amended.1 "1. hello\n7. world" 1, ?_⟩
  · have := c10_parse_numbered_response_amended.2.2.2.2 "hello there"
      (by decide) (by decide)
    simpa using this
  · have := c10_parse_numbered_response_amended.2.2.2.1 1
      ⟨[none], some 1, "hello".data⟩ 1 "7. world".data rfl (by decide) (by decide)
    rw [this]
    decide

/-! ### Helper lemmas for `translate_batch` (C3) -/

/-- Every index produced by `nonEmptyIndicesFrom k ts` points at a
non-blank element of `ts`, shifted by `k`. -/
theorem mem_nonEmptyIndicesFrom {ts : List String} {k i : Nat}
    (h : i ∈ nonEmptyIndicesFrom k ts) :
    ∃ j t, i = k + j ∧ ts[j]? = some t ∧ isBlank t = false := by
  induction ts generalizing k with
  | nil => simp [nonEmptyIndicesFrom] at h
  | cons t ts ih =>
    unfold nonEmptyIndicesFrom at h
    by_cases hb : isBlank t
    · rw [if_pos hb] at h
      obtain ⟨j, u, hij, hget, hu⟩ := ih h
      exact ⟨j + 1, u, by omega, by simpa using hget, hu⟩
    · rw [if_neg hb] at h
      rcases List.mem_cons.mp h with rfl | h2
      · exact ⟨0, t, by omega, by simp, by simpa using hb⟩
      · obtain ⟨j, u, hij, hget, hu⟩ := ih h2
        exact ⟨j + 1, u, by omega, by simpa using hget, hu⟩

/-- The payload built from `nonEmptyIndicesFrom` is the sublist of
non-blank strings, in order. -/
theorem nonEmptyIndices_filterMap (ts : List String) (k : Nat) (L : List String)
    (hL : ∀ j, L[k + j]? = ts[j]?) :
    (nonEmptyIndicesFrom k ts).filterMap (fun i => L[i]?) =
      ts.filter (fun t => !(isBlank t)) := by
  induction ts generalizing k with
  | nil => simp [nonEmptyIndicesFrom]
  | cons t ts ih =>
    have hk : L[k]? = some t := by simpa using hL 0
    have hL' : ∀ j, L[(k + 1) + j]? = ts[j]? := by
      intro j
      have := hL (j + 1)
      simpa [Nat.add_assoc, Nat.add_comm 1 j] using this
    unfold nonEmptyIndicesFrom
    by_cases hb : isBlank t
    · simp only [if_pos hb]
      rw [ih (k + 1) hL']
      simp [hb]
    · simp only [if_neg hb]
      rw [List.filterMap_cons]
      rw [hk, ih (k + 1) hL']
      simp [hb]

/-- `mapBack` preserves the length of the result vector. -/
theorem mapBack_length (translated : List (Option String)) (idxs : List Nat)
    (ti : Nat) (res : List (Option String)) :
    (mapBack translated idxs ti res).length = res.length := by
  induction idxs generalizing ti res with
  | nil => rfl
  | cons oi rest ih =>
    unfold mapBack
    rcases h : translated[ti]? with _ | v
    · simp [h, ih]
    · simp [h, ih]

/-- `mapBack` leaves untouched every position it was not asked to write. -/
theorem mapBack_not_mem (translated : List (Option String)) (idxs : List Nat)
    (ti : Nat) (res : List (Option String)) (i : Nat) (hi : i ∉ idxs) :
    (mapBack translated idxs ti res)[i]? = res[i]? := by
  induction idxs generalizing ti res with
  | nil => rfl
  | cons oi rest ih =>
    have hne : oi ≠ i := fun h => hi (by simp [h])
    have hrest : i ∉ rest := fun h => hi (by simp [h])
    unfold mapBack
    rcases h : translated[ti]? with _ | v
    · simpa [h] using ih (ti + 1) res hrest
    · rw [ih (ti + 1) _ hrest]
      simp [List.getElem?_set_ne hne]

/-! ### Claim C3 -/

/-- Claim C3: a successful `translate_batch` call returns a list of the
same length and order as its input; the request sent to the backend is
exactly the sublist of non-blank inputs (so empty or whitespace-only
items are never sent); every blank input maps to `None`; and on
`["", "Hi", "  "]`, when the backend translates `["Hi"]`, the result is
`[None, Some _, None]`. -/
theorem c3_translate_batch_contract :
    (∀ texts : List String,
        batchPayload texts = texts.filter (fun t => !(isBlank t))) ∧
    (∀ (backend : List String → Option (List (Option String)))
        (texts : List String) (out : List (Option String)),
        translate_batch backend texts = some out →
        out.length = texts.length) ∧
    (∀ (backend : List String → Option (List (Option String)))
        (texts : List String) (out : List (Option String)) (i : Nat) (t : String),
        translate_batch backend texts = some out →
        texts[i]? = some t → isBlank t = true → out[i]? = some none) ∧
    (∀ (backend : List String → Option (List (Option String))) (t : String),
        backend ["Hi"] = some [some t] →
        translate_batch backend ["", "Hi", "  "] = some [none, some t, none]) := by
  have hpayload : ∀ texts : List String,
      batchPayload texts = texts.filter (fun t => !(isBlank t)) := by
    intro texts
    exact nonEmptyIndices_filterMap texts 0 texts (fun j => by simp)
  refine ⟨hpayload, ?_, ?_, ?_⟩
  · intro backend texts out hout
    unfold translate_batch at hout
    by_cases h0 : texts.isEmpty
    · rw [if_pos h0] at hout
      cases hout
      simp [List.isEmpty_iff.mp h0]
    · rw [if_neg h0] at hout
      by_cases h1 : (nonEmptyIndicesFrom 0 texts).isEmpty
      · rw [if_pos h1] at hout
        cases hout
        simp
      · rw [if_neg h1] at hout
        rcases hb : backend (batchPayload texts) with _ | translated
        · rw [hb] at hout; cases hout
        · rw [hb] at hout
          cases hout
          rw [mapBack_length]
          simp
  · intro backend texts out i t hout hget hblank
    have hmem : i ∉ nonEmptyIndicesFrom 0 texts := by
      intro hmem
      obtain ⟨j, u, hij, hgetj, hu⟩ := mem_nonEmptyIndicesFrom hmem
      have : j = i := by omega
      subst this
      rw [hget] at hgetj
      cases hgetj
      rw [hblank] at hu
      cases hu
    have hi : i < texts.length := by
      by_contra hge
      rw [List.getElem?_eq_none (by omega)] at hget
      cases hget
    unfold translate_batch at hout
    by_cases h0 : texts.isEmpty
    · rw [List.isEmpty_iff.mp h0] at hi
      simp at hi
    · rw [if_neg h0] at hout
      by_cases h1 : (nonEmptyIndicesFrom 0 texts).isEmpty
      · rw [if_pos h1] at hout
        cases hout
        simp [List.getElem?_replicate, hi]
      · rw [if_neg h1] at hout
        rcases hb : backend (batchPayload texts) with _ | translated
        · rw [hb] at hout; cases hout
        · rw [hb] at hout
          cases hout
          rw [mapBack_not_mem _ _ _ _ _ hmem]
          simp [List.getElem?_replicate, hi]
  · intro backend t hb
    unfold translate_batch
    have hpay : batchPayload ["", "Hi", "  "] = ["Hi"] := by decide
    rw [if_neg (by decide), if_neg (by decide), hpay, hb]
    rfl

/-- Witness for C3: the contract applied to the concrete example with a
backend that translates `"Hi"` to `"X"`. -/
theorem c3_translate_batch_contract_witness :
    translate_batch (fun _ => some [some "X"]) ["", "Hi", "  "] =
      some [none, some "X", none] :=
  c3_translate_batch_contract.2.2.2 (fun _ => some [some "X"]) "X" rfl

/-! ### Claim C4 -/

/-- Claim C4 counterexample: with installed recognizer languages
`["ja-JP", "en-US"]`, configured source language `"ja"`, and engine
creation succeeding for every language, the code selects `"en-US"` (its
preference is the hardcoded prefix `"en"`), while the claimed selection
would pick the matching `"ja-JP"`; moreover with the single language
`["ja-JP"]` present but engine creation failing, the code fails hard even
though the host has a nonzero number of recognizer languages. -/
theorem c4_hardcoded_english_counterexample :
    ocrEngineNew ["ja-JP", "en-US"] (fun _ => true) = .ok "en-US" ∧
    claimEngineSelect "ja" ["ja-JP", "en-US"] = .ok "ja-JP" ∧
    (Except.ok "en-US" : Except String String) ≠ .ok "ja-JP" ∧
    ocrEngineNew ["ja-JP"] (fun _ => false) =
      .error "Failed to create OCR engine from any available language" := by
  exact ⟨rfl, rfl, by simp, rfl⟩

/-- Claim C4 (amended): at startup, engine selection prefers the first
installed recognizer language whose lowercased tag starts with the
hardcoded prefix `"en"` (English — the configured source language is not
consulted) and for which engine creation succeeds; if there is none, it
falls back to the first available recognizer language; it fails when zero
recognizer languages exist, and also when engine creation fails for the
fallback language; any selected language is an available one for which
creation succeeded. -/
theorem c4_engine_selection_amended :
    (∀ tryCreate : String → Bool,
        ocrEngineNew [] tryCreate = .error "No OCR languages available.") ∧
    (∀ (l0 : String) (rest : List String) (tryCreate : String → Bool) (l : String),
        ((l0 :: rest).filter (fun t => startsWithStr "en" (lowerStr t))).find?
            tryCreate = some l →
        ocrEngineNew (l0 :: rest) tryCreate = .ok l) ∧
    (∀ (l0 : String) (rest : List String) (tryCreate : String → Bool),
        ((l0 :: rest).filter (fun t => startsWithStr "en" (lowerStr t))).find?
            tryCreate = none →
        tryCreate l0 = true →
        ocrEngineNew (l0 :: rest) tryCreate = .ok l0) ∧
    (∀ (l0 : String) (rest : List String) (tryCreate : String → Bool),
        ((l0 :: rest).filter (fun t => startsWithStr "en" (lowerStr t))).find?
            tryCreate = none →
        tryCreate l0 = false →
        ocrEngineNew (l0 :: rest) tryCreate =
          .error "Failed to create OCR engine from any available language") ∧
    (∀ (available : List String) (tryCreate : String → Bool) (l : String),
        ocrEngineNew available tryCreate = .ok l →
        l ∈ available ∧ tryCreate l = true) := by
  refine ⟨fun _ => rfl, ?_, ?_, ?_, ?_⟩
  · intro l0 rest tryCreate l hfind
    simp only [ocrEngineNew, hfind]
  · intro l0 rest tryCreate hfind htc
    simp only [ocrEngineNew, hfind, htc, if_true]
  · intro l0 rest tryCreate hfind htc
    simp only [ocrEngineNew, hfind, htc, Bool.false_eq_true, if_false]
  · intro available tryCreate l hok
    cases available with
    | nil => cases hok
    | cons l0 rest =>
      rcases hfind : ((l0 :: rest).filter
          (fun t => startsWithStr "en" (lowerStr t))).find? tryCreate with _ | l'
      · simp only [ocrEngineNew, hfind] at hok
        by_cases htc : tryCreate l0 = true
        · rw [if_pos htc] at hok
          cases hok
          exact ⟨by simp, htc⟩
        · rw [if_neg htc] at hok
          cases hok
      · simp only [ocrEngineNew, hfind] at hok
        cases hok
        refine ⟨?_, List.find?_some hfind⟩
        exact List.mem_of_mem_filter (List.mem_of_find?_eq_some hfind)

/-- Witness for C4: the amended selection rule applied to the concrete
language lists of the counterexample. -/
theorem c4_engine_selection_amended_witness :
    ocrEngineNew ["ja-JP", "fr-FR"] (fun _ => true) = .ok "ja-JP" ∧
    ocrEngineNew ["fr-FR"] (fun _ => false) =
      .error "Failed to create OCR engine from any available language" := by
  constructor
  · exact c4_engine_selection_amended.2.2.1 "ja-JP" ["fr-FR"] (fun _ => true)
      (by rfl) rfl
  · exact c4_engine_selection_amended.2.2.2.1 "fr-FR" [] (fun _ => false)
      (by rfl) rfl

/-! ### Claim C7 -/

/-- Claim C7: `capture_frame` returns `None` exactly when the client area
has zero width or height; for positive sizes, a second consecutive capture
at the same size performs no reallocation, while a capture whose size
differs from the currently allocated one reallocates exactly once. -/
theorem c7_capture_frame_contract :
    (∀ st w h, (capture_frame st w h).2 = none ↔ w = 0 ∨ h = 0) ∧
    (∀ st w h, 0 < w → 0 < h →
        (capture_frame (capture_frame st w h).1 w h).1.allocCount =
          (capture_frame st w h).1.allocCount) ∧
    (∀ st w h, 0 < w → 0 < h → st.allocated = true →
        (st.width ≠ w ∨ st.height ≠ h) →
        (capture_frame st w h).1.allocCount = st.allocCount + 1) := by
  refine ⟨?_, ?_, ?_⟩
  · intro st w h
    unfold capture_frame
    by_cases h0 : w = 0 ∨ h = 0
    · simp [h0]
    · simp [h0]
  · intro st w h hw hh
    have h0 : ¬ (w = 0 ∨ h = 0) := by omega
    unfold capture_frame ensure_dib
    simp only [h0, if_false]
    by_cases hsame : st.width = w ∧ st.height = h ∧ st.allocated
    · simp [hsame]
    · simp [hsame]
  · intro st w h hw hh halloc hdiff
    have h0 : ¬ (w = 0 ∨ h = 0) := by omega
    have hns : ¬ (st.width = w ∧ st.height = h ∧ st.allocated) := by
      rcases hdiff with hd | hd <;> simp [hd]
    unfold capture_frame ensure_dib
    simp [h0, hns]

/-- Witness for C7: the contract at a fresh capture state and size 3×4,
then a resize to 5×4. -/
theorem c7_capture_frame_contract_witness :
    ((capture_frame captureNew 3 4).2 = none ↔ (3 = 0 ∨ 4 = 0)) ∧
    (capture_frame (capture_frame captureNew 3 4).1 3 4).1.allocCount =
      (capture_frame captureNew 3 4).1.allocCount ∧
    (capture_frame (⟨3, 4, true, 1⟩ : CaptureSt) 5 4).1.allocCount = 1 + 1 := by
  refine ⟨c7_capture_frame_contract.1 captureNew 3 4, ?_, ?_⟩
  · exact c7_capture_frame_contract.2.1 captureNew 3 4 (by omega) (by omega)
  · exact c7_capture_frame_contract.2.2 ⟨3, 4, true, 1⟩ 5 4 (by omega) (by omega)
      rfl (by simp)

/-! ### Helper lemmas for the text-format cache (C5) -/

/-- `get_or_create_text_format` never disturbs an existing cache entry. -/
theorem lookup_get_or_create_mono (c : FormatCache) (fs : ℚ) (k f : Nat)
    (h : List.lookup k c.entries = some f) :
    List.lookup k ((get_or_create_text_format c fs).2.entries) = some f := by
  unfold get_or_create_text_format
  rcases hl : List.lookup (quantizeKey fs) c.entries with _ | g
  · have hk : (k == quantizeKey fs) = false := by
      refine beq_eq_false_iff_ne.mpr ?_
      intro he
      rw [he, hl] at h
      cases h
    simp only [hl, List.lookup, hk]
    exact h
  · simp only [hl]
    exact h

/-- After `get_or_create_text_format`, the key of the requested font size
is bound to the returned format. -/
theorem lookup_get_or_create_self (c : FormatCache) (fs : ℚ) :
    List.lookup (quantizeKey fs) ((get_or_create_text_format c fs).2.entries) =
      some (get_or_create_text_format c fs).1 := by
  unfold get_or_create_text_format
  rcases hl : List.lookup (quantizeKey fs) c.entries with _ | g
  · simp [hl, List.lookup]
  · simp [hl]

/-- Entries survive the whole format-resolution pass. -/
theorem resolveFormats_mono (texts : List TranslatedText) (c : FormatCache)
    (k f : Nat) (h : List.lookup k c.entries = some f) :
    List.lookup k ((resolveFormats c texts).2.entries) = some f := by
  induction texts generalizing c with
  | nil => exact h
  | cons t ts ih =>
    simpa [resolveFormats] using
      ih (get_or_create_text_format c t.font_size).2
        (lookup_get_or_create_mono c t.font_size k f h)

/-- Each item's resolved format is the final cache's binding of that
item's quantized font-size key. -/
theorem resolveFormats_assigned (texts : List TranslatedText) (c : FormatCache)
    (i : Nat) (t : TranslatedText) (ht : texts[i]? = some t) :
    ∃ f, ((resolveFormats c texts).1)[i]? = some f ∧
      List.lookup (quantizeKey t.font_size)
        ((resolveFormats c texts).2.entries) = some f := by
  induction texts generalizing c i with
  | nil => simp at ht
  | cons u ts ih =>
    cases i with
    | zero =>
      have : u = t := by simpa using ht
      subst this
      refine ⟨(get_or_create_text_format c u.font_size).1, by simp [resolveFormats], ?_⟩
      exact resolveFormats_mono ts _ _ _ (lookup_get_or_create_self c u.font_size)
    | succ j =>
      have ht' : ts[j]? = some t := by simpa using ht
      obtain ⟨f, h1, h2⟩ := ih (get_or_create_text_format c u.font_size).2 j ht'
      exact ⟨f, by simpa [resolveFormats] using h1, h2⟩

/-! ### Claim C5 -/

/-- Claim C5 counterexample: the cache key of font size 10.7 is
`(10.7f32.max(8.0)) as u32 = 10` (truncation), not the claimed
`max(8, round(10.7)) = 11`. -/
theorem c5_round_key_counterexample :
    quantizeKey (Rat.divInt 107 10) = 10 ∧
    claimQuantizeKey (Rat.divInt 107 10) = 11 ∧
    (Rat.divInt 107 10 : ℚ) = 107 / 10 ∧
    (quantizeKey (Rat.divInt 107 10) : Int) ≠
      claimQuantizeKey (Rat.divInt 107 10) := by
  refine ⟨by decide, by decide, by norm_num [Rat.divInt_eq_div], by decide⟩

/-- Claim C5 (amended): in `render`, each text item's layout format is
resolved from a cache keyed by `trunc(max(8, font_size))` (the `as u32`
cast truncates; it does not round), so two items whose font sizes
quantize to the same key share one format object, and each string is laid
out with wrapping width `max(max_width, 150)` device units. -/
theorem c5_format_cache_and_wrap_amended :
    (∀ c fs f, List.lookup (quantizeKey fs) c.entries = some f →
        get_or_create_text_format c fs = (f, c)) ∧
    (∀ (c : FormatCache) (texts : List TranslatedText) (i j : Nat)
        (ti tj : TranslatedText), texts[i]? = some ti → texts[j]? = some tj →
        quantizeKey ti.font_size = quantizeKey tj.font_size →
        ((resolveFormats c texts).1)[i]? = ((resolveFormats c texts).1)[j]?) ∧
    (∀ (c : FormatCache) (texts : List TranslatedText),
        (renderLayouts c texts).1.map LayoutOp.wrap =
          texts.map (fun t => max t.max_width 150)) := by
  refine ⟨?_, ?_, ?_⟩
  · intro c fs f h
    unfold get_or_create_text_format
    simp [h]
  · intro c texts i j ti tj hi hj hkey
    obtain ⟨f, hfi, hli⟩ := resolveFormats_assigned texts c i ti hi
    obtain ⟨g, hgj, hlj⟩ := resolveFormats_assigned texts c j tj hj
    rw [hkey] at hli
    rw [hli] at hlj
    cases hlj
    rw [hfi, hgj]
  · intro c texts
    induction texts generalizing c with
    | nil => simp [renderLayouts, resolveFormats]
    | cons t ts ih =>
      have := ih (get_or_create_text_format c t.font_size).2
      simpa [renderLayouts, resolveFormats] using this

/-- Witness for C5: a cache hit returns the cached format, and the items
with font sizes 10.2 and 10.9 (both quantizing to key 10) share one
format. -/
theorem c5_format_cache_and_wrap_witness :
    get_or_create_text_format ⟨[(10, 42)], 43⟩ (Rat.divInt 51 5) =
      (42, ⟨[(10, 42)], 43⟩) ∧
    ((resolveFormats ⟨[], 0⟩
        [⟨"a", 0, 0, 0, Rat.divInt 51 5⟩, ⟨"b", 0, 0, 0, Rat.divInt 109 10⟩]).1)[0]? =
      ((resolveFormats ⟨[], 0⟩
        [⟨"a", 0, 0, 0, Rat.divInt 51 5⟩, ⟨"b", 0, 0, 0, Rat.divInt 109 10⟩]).1)[1]? := by
  constructor
  · exact c5_format_cache_and_wrap_amended.1 ⟨[(10, 42)], 43⟩ (Rat.divInt 51 5) 42
      (by decide)
  · exact c5_format_cache_and_wrap_amended.2.1 ⟨[], 0⟩
      [⟨"a", 0, 0, 0, Rat.divInt 51 5⟩, ⟨"b", 0, 0, 0, Rat.divInt 109 10⟩] 0 1
      ⟨"a", 0, 0, 0, Rat.divInt 51 5⟩ ⟨"b", 0, 0, 0, Rat.divInt 109 10⟩
      rfl rfl (by decide)

/-! ### Claim C6 -/

/-- Claim C6: `render` and `clear` catch exactly the
render-target-must-be-recreated code `0x8899000C`: on it they discard all
device-bound resources (both brushes, the cached text formats, the render
target), rebuild them against the same memory DC, and retry the failed
operation exactly once, the retry's outcome (success or error)
propagating as is; any other error, and any error of the recreation
itself, propagates. -/
theorem c6_device_loss_retry :
    (∀ inner createRes st, inner st = .ok () →
        overlayRender inner createRes st = (.ok (), st, 1)) ∧
    (∀ inner createRes st e, inner st = .error e →
        e ≠ D2DERR_RECREATE_TARGET →
        overlayRender inner createRes st = (.error e, st, 1)) ∧
    (∀ inner st, inner st = .error D2DERR_RECREATE_TARGET →
        overlayRender inner (.ok ()) st =
          (inner ((recreate_render_resources (.ok ()) st).2),
            (recreate_render_resources (.ok ()) st).2, 2)) ∧
    (∀ st, (recreate_render_resources (.ok ()) st).2.memoryDc = st.memoryDc ∧
        (recreate_render_resources (.ok ()) st).2.formatCache = [] ∧
        (recreate_render_resources (.ok ()) st).2.bgBrush = some (st.gen + 1) ∧
        (recreate_render_resources (.ok ()) st).2.textBrush = some (st.gen + 1) ∧
        (recreate_render_resources (.ok ()) st).2.renderTarget = some (st.gen + 1)) ∧
    (∀ inner st re, inner st = .error D2DERR_RECREATE_TARGET →
        overlayRender inner (.error re) st =
          (.error re, discardDeviceResources st, 1)) ∧
    (∀ inner createRes st, inner st = .ok () →
        overlayClear inner createRes st = (.ok (), st, 1)) ∧
    (∀ inner createRes st e, inner st = .error e →
        e ≠ D2DERR_RECREATE_TARGET →
        overlayClear inner createRes st = (.error e, st, 1)) ∧
    (∀ inner st, inner st = .error D2DERR_RECREATE_TARGET →
        overlayClear inner (.ok ()) st =
          (inner ((recreate_render_resources (.ok ()) st).2),
            (recreate_render_resources (.ok ()) st).2, 2)) ∧
    (∀ inner st re, inner st = .error D2DERR_RECREATE_TARGET →
        overlayClear inner (.error re) st =
          (.error re, discardDeviceResources st, 1)) := by
  refine ⟨?_, ?_, ?_, ?_, ?_, ?_, ?_, ?_, ?_⟩
  · intro inner createRes st h
    simp [overlayRender, h]
  · intro inner createRes st e h hne
    simp [overlayRender, h, hne]
  · intro inner st h
    simp [overlayRender, h, recreate_render_resources]
  · intro st
    exact ⟨rfl, rfl, rfl, rfl, rfl⟩
  · intro inner st re h
    simp [overlayRender, h, recreate_render_resources]
  · intro inner createRes st h
    simp [overlayClear, h]
  · intro inner createRes st e h hne
    simp [overlayClear, h, hne]
  · intro inner st h
    simp [overlayClear, h, recreate_render_resources]
  · intro inner st re h
    simp [overlayClear, h, recreate_render_resources]

/-- A concrete resource state for the C6 witness. -/
def demoOverlayRes : OverlayRes := ⟨some 0, some 0, [(12, 0)], some 0, 7, 0⟩

/-- An inner drawing operation that reports device loss against the
generation-0 resources and succeeds after a rebuild. -/
def demoInner : OverlayRes → Except Nat Unit :=
  fun s => if s.gen = 0 then .error D2DERR_RECREATE_TARGET else .ok ()

/-- Witness for C6: the retry-once recovery at a concrete state, a
non-recreate error propagating from `clear`, and the rebuilt resources
keeping the memory DC. -/
theorem c6_device_loss_retry_witness :
    overlayRender demoInner (.ok ()) demoOverlayRes =
      (.ok (), (recreate_render_resources (.ok ()) demoOverlayRes).2, 2) ∧
    overlayClear (fun _ => .error 5) (.ok ()) demoOverlayRes =
      (.error 5, demoOverlayRes, 1) ∧
    (recreate_render_resources (.ok ()) demoOverlayRes).2.memoryDc =
      demoOverlayRes.memoryDc := by
  obtain ⟨h1, h2, h3, h4, h5, h6, h7, h8, h9⟩ := c6_device_loss_retry
  refine ⟨?_, ?_, (h4 demoOverlayRes).1⟩
  · rw [h3 demoInner demoOverlayRes rfl]
    rfl
  · exact h7 (fun _ => .error 5) (.ok ()) demoOverlayRes 5 rfl (by decide)

/-! ### Claim C8 -/

/-- Claim C8 counterexample: a tick on which the target window is not the
foreground window sleeps a fixed 500 ms — not the value of the claimed
counter function (which is 200 ms at counter 0) — so the sleep delay of a
tick is not a function of the no-change counter alone. -/
theorem c8_fixed_500ms_counterexample :
    (loopTick demoTranslator false (some ["Hello"]) ⟨["x"], 0, []⟩).2.slept = 500 ∧
    tickInterval 0 = 200 ∧ (500 : Nat) ≠ 200 :=
  ⟨rfl, rfl, by decide⟩

/-- Claim C8 (amended): on every tick on which the target window is the
foreground window and the translation call does not fail, the sleep delay
is the stated function of the no-change counter as it stood at the start
of the tick: 2000 ms if it is greater than 10, 1000 ms if it is greater
than 5, and otherwise 200 ms (a not-foreground tick instead sleeps a
fixed 500 ms, and a failed translation call sleeps an extra 2000 ms
first); when the recognized string list equals the previous tick's list,
the counter is incremented and the translator is not invoked; and over 20
consecutive foreground ticks with identical recognized text the delay
goes 200 ms (ticks 1–7), 1000 ms (ticks 8–12), 2000 ms (ticks 13–20),
with no translator call after the first tick. -/
theorem c8_adaptive_interval_amended :
    (∀ n, (10 < n → tickInterval n = 2000) ∧
        (5 < n → n ≤ 10 → tickInterval n = 1000) ∧
        (n ≤ 5 → tickInterval n = 200)) ∧
    (∀ (tr : List String → Option (List (Option String)))
        (frame : Option (List String)) (st : LoopSt),
        (∀ ts, tr ts ≠ none) →
        (loopTick tr true frame st).2.slept = tickInterval st.noChangeCount) ∧
    (∀ (tr : List String → Option (List (Option String)))
        (st : LoopSt) (texts : List String), texts ≠ [] →
        texts_changed texts st.prevTexts = false →
        loopTick tr true (some texts) st =
          ({ st with noChangeCount := st.noChangeCount + 1 },
            ⟨tickInterval st.noChangeCount, false⟩)) ∧
    ((runTicks demoTranslator ["Hello"] 20 ⟨[], 0, []⟩).2 =
      ⟨200, true⟩ :: (List.replicate 6 ⟨200, false⟩ ++
        List.replicate 5 ⟨1000, false⟩ ++ List.replicate 8 ⟨2000, false⟩)) := by
  refine ⟨?_, ?_, ?_, by decide⟩
  · intro n
    refine ⟨fun h => ?_, fun h1 h2 => ?_, fun h => ?_⟩
    · simp [tickInterval, h]
    · have hn : ¬ n > 10 := by omega
      simp [tickInterval, hn, h1]
    · have h1 : ¬ n > 10 := by omega
      have h2 : ¬ n > 5 := by omega
      simp [tickInterval, h1, h2]
  · intro tr frame st htr
    unfold loopTick
    rcases frame with _ | texts
    · rfl
    · simp only [Bool.not_true, Bool.false_eq_true, if_false]
      by_cases hemp : texts.isEmpty
      · simp [hemp]
      · simp only [hemp, Bool.false_eq_true, if_false]
        by_cases hch : texts_changed texts st.prevTexts
        · simp only [hch, if_true]
          by_cases hunc :
              (texts.filter (fun t => (List.lookup t st.cache).isNone)).isEmpty
          · simp [hunc]
          · simp only [hunc, Bool.false_eq_true, if_false]
            rcases htrr : tr (texts.filter (fun t => (List.lookup t st.cache).isNone))
              with _ | translations
            · exact absurd htrr (htr _)
            · simp [htrr]
        · simp [hch]
  · intro tr st texts hne hch
    unfold loopTick
    have hemp : texts.isEmpty = false := by
      cases texts with
      | nil => exact absurd rfl hne
      | cons a as => rfl
    simp [hemp, hch]

/-- Witness for C8: the amended statement applied at counter 12, at a
concrete successful translator, and at a concrete unchanged tick. -/
theorem c8_adaptive_interval_amended_witness :
    tickInterval 12 = 2000 ∧
    (loopTick demoTranslator true (some ["Hello"]) ⟨[], 7, []⟩).2.slept =
      tickInterval 7 ∧
    loopTick demoTranslator true (some ["Hello"]) ⟨["Hello"], 3, []⟩ =
      (⟨["Hello"], 4, []⟩, ⟨tickInterval 3, false⟩) := by
  refine ⟨(c8_adaptive_interval_amended.1 12).1 (by omega), ?_, ?_⟩
  · exact c8_adaptive_interval_amended.2.1 demoTranslator (some ["Hello"])
      ⟨[], 7, []⟩ (fun ts => by simp [demoTranslator])
  · exact c8_adaptive_interval_amended.2.2.1 demoTranslator ⟨["Hello"], 3, []⟩
      ["Hello"] (by simp) (by decide)

/-! ### Helper lemmas for the translation cache (C9) -/

/-- Removing the bindings of a different key does not change a lookup. -/
theorem lookup_filter_ne (c : List (String × String)) (k o : String)
    (hk : k ≠ o) :
    List.lookup k (c.filter (fun p => p.1 != o)) = List.lookup k c := by
  induction c with
  | nil => rfl
  | cons p ps ih =>
    by_cases hp : p.1 = o
    · have hko : (k == o) = false := beq_eq_false_iff_ne.mpr hk
      simp [hp, List.lookup, hko, ih]
    · have hpo : (p.1 != o) = true := by simpa using hp
      by_cases hkp : k = p.1
      · simp [List.filter_cons, hpo, List.lookup, hkp]
      · have hkp' : (k == p.1) = false := beq_eq_false_iff_ne.mpr hkp
        simp [List.filter_cons, hpo, List.lookup, hkp', ih]

/-- `cacheInsert` at a different key does not change a lookup. -/
theorem lookup_cacheInsert_ne (c : List (String × String)) (k o v : String)
    (hk : k ≠ o) :
    List.lookup k (cacheInsert c o v) = List.lookup k c := by
  have hko : (k == o) = false := beq_eq_false_iff_ne.mpr hk
  simp [cacheInsert, List.lookup, hko, lookup_filter_ne c k o hk]

/-- The insertion loop preserves every binding whose key is not in the
batch. -/
theorem insertBatch_preserves (us : List String) (rs : List (Option String))
    (c : List (String × String)) (k v : String)
    (ho : ∀ o ∈ us, o ≠ k) (h : List.lookup k c = some v) :
    List.lookup k (insertBatch c us rs) = some v := by
  induction us generalizing rs c with
  | nil => simpa [insertBatch] using h
  | cons o os ih =>
    cases rs with
    | nil => simpa [insertBatch] using h
    | cons r rs =>
      cases r with
      | none =>
        simpa [insertBatch] using ih rs c (fun u hu => ho u (by simp [hu])) h
      | some t =>
        have hk : k ≠ o := (ho o (by simp)).symm
        have h' : List.lookup k (cacheInsert c o t) = some v := by
          rw [lookup_cacheInsert_ne c k o t hk]
          exact h
        simpa [insertBatch] using ih rs (cacheInsert c o t)
          (fun u hu => ho u (by simp [hu])) h'

/-! ### Claim C9 -/

/-- Claim C9 counterexample: when two recognized regions carry the same
text `"A"` and the translator returns two different translations, the
tick's insertion loop first adds the entry `("A", "X")` and then
overwrites it with `("A", "Y")` — so cache entries are not only-added:
one is overwritten within a single pipeline run. -/
theorem c9_overwrite_counterexample :
    (loopTick (fun _ => some [some "X", some "Y"]) true (some ["A", "A"])
        ⟨[], 0, []⟩).1.cache = [("A", "Y")] ∧
    insertBatch [] ["A", "A"] [some "X", some "Y"] =
      insertBatch (cacheInsert [] "A" "X") ["A"] [some "Y"] ∧
    List.lookup "A" (cacheInsert [] "A" "X") = some "X" ∧
    List.lookup "A" (insertBatch (cacheInsert [] "A" "X") ["A"] [some "Y"]) =
      some "Y" ∧
    ("X" : String) ≠ "Y" := by
  refine ⟨by decide, by decide, by decide, by decide, by decide⟩

/-- Claim C9 (amended): within one pipeline run, cache entries are never
removed, and an entry present at the start of a tick is never overwritten
(a value can only be replaced when the same source text occurs more than
once inside a single tick's batch, overwriting an entry created moments
earlier in that same tick); every string included in a tick's batch is
absent from the cache at the moment of sending; and a text with a cache
entry is never included in a batch, so a text once translated and cached
is never sent to the translator again until the process restarts. -/
theorem c9_cache_append_only_amended :
    (∀ (cache : List (String × String)) (texts : List String) (t : String),
        t ∈ texts.filter (fun u => (List.lookup u cache).isNone) →
        List.lookup t cache = none) ∧
    (∀ (cache : List (String × String)) (texts : List String) (t : String),
        List.lookup t cache ≠ none →
        t ∉ texts.filter (fun u => (List.lookup u cache).isNone)) ∧
    (∀ (cache : List (String × String)) (uncached : List String)
        (rs : List (Option String)) (k v : String),
        (∀ o ∈ uncached, List.lookup o cache = none) →
        List.lookup k cache = some v →
        List.lookup k (insertBatch cache uncached rs) = some v) ∧
    (∀ (tr : List String → Option (List (Option String))) (fg : Bool)
        (frame : Option (List String)) (st : LoopSt) (k v : String),
        List.lookup k st.cache = some v →
        List.lookup k ((loopTick tr fg frame st).1.cache) = some v) := by
  have habsent : ∀ (cache : List (String × String)) (texts : List String)
      (t : String), t ∈ texts.filter (fun u => (List.lookup u cache).isNone) →
      List.lookup t cache = none := by
    intro cache texts t ht
    have := (List.mem_filter.mp ht).2
    exact Option.isNone_iff_eq_none.mp (by simpa using this)
  have hpreserve : ∀ (cache : List (String × String)) (uncached : List String)
      (rs : List (Option String)) (k v : String),
      (∀ o ∈ uncached, List.lookup o cache = none) →
      List.lookup k cache = some v →
      List.lookup k (insertBatch cache uncached rs) = some v := by
    intro cache uncached rs k v ho h
    refine insertBatch_preserves uncached rs cache k v ?_ h
    intro o hmem he
    have hnone := ho o hmem
    rw [he, h] at hnone
    cases hnone
  refine ⟨habsent, ?_, hpreserve, ?_⟩
  · intro cache texts t hne hmem
    exact hne (habsent cache texts t hmem)
  · intro tr fg frame st k v h
    unfold loopTick
    cases fg with
    | false => simpa using h
    | true =>
      rcases frame with _ | texts
      · simpa using h
      · simp only [Bool.not_true, Bool.false_eq_true, if_false]
        by_cases hemp : texts.isEmpty
        · simpa [hemp] using h
        · simp only [hemp, Bool.false_eq_true, if_false]
          by_cases hch : texts_changed texts st.prevTexts
          · simp only [hch, if_true]
            by_cases hunc :
                (texts.filter (fun t => (List.lookup t st.cache).isNone)).isEmpty
            · simpa [hunc] using h
            · simp only [hunc, Bool.false_eq_true, if_false]
              rcases htrr : tr (texts.filter
                  (fun t => (List.lookup t st.cache).isNone)) with _ | translations
              · simpa [htrr] using h
              · simp only [htrr]
                exact hpreserve st.cache _ translations k v
                  (fun o hmem => habsent st.cache texts o hmem) h
          · simpa [hch] using h

/-- Witness for C9: a tick whose batch translates `"A"` leaves the
pre-existing entry for `"B"` intact, and a cached text is excluded from
the batch. -/
theorem c9_cache_append_only_amended_witness :
    List.lookup "B" ((loopTick demoTranslator true (some ["A", "B"])
        ⟨[], 0, [("B", "old")]⟩).1.cache) = some "old" ∧
    "B" ∉ (["A", "B"].filter
      (fun u => (List.lookup u [("B", "old")]).isNone)) := by
  constructor
  · exact c9_cache_append_only_amended.2.2.2 demoTranslator true (some ["A", "B"])
      ⟨[], 0, [("B", "old")]⟩ "B" "old" (by decide)
  · exact c9_cache_append_only_amended.2.1 [("B", "old")] ["A", "B"] "B"
      (by decide)

end GameTranslator
